import Mathlib

/-!
# Verification of the agro-share day-scheduling core

Shallow embedding of the scheduling/routing engine of
`src/backend/models/index.js` (the scheduler section: `calculateDistance`,
`calculateTravelTime`, `sortByLocation`, `scheduleJobs`,
`calculateOptimalRoute`, `getAvailableSlots`, `calculateUtilization`),
together with proofs and refutations of the specification's claims.

Modelling conventions:
* JavaScript numbers that the code treats as integers (minutes, hours,
  priorities, durations) are modelled as `ℤ` or `ℕ`; quantities that may be
  fractional (coordinates, acres) as `ℚ`; the Haversine distance, which the
  code computes with floating-point trigonometry, is modelled over `ℝ` with
  exact real trigonometric functions.
* A possibly-`undefined`/`null` JavaScript value is an `Option`.  The
  JavaScript idiom `x || d` (which replaces `undefined`, `null`, `0`, `""`
  by `d`) is modelled by the `jsOr*` helpers below: they substitute the
  default both for a missing value and for a zeroish value, exactly as
  JavaScript truthiness does.
* Times of day are kept as minutes since midnight.  The code renders them
  through `formatTime` (an injective rendering `m ↦ "HH:MM"`) when it stores
  them in slot records and parses them back with `parseTime`; the embedding
  keeps the numeric value itself.
* `Infinity` (the initial value of `nearestDistance` in `sortByLocation`)
  is modelled as `none : Option ℝ`; every finite distance compares below it.
-/

/-- A coordinate pair `{latitude, longitude}` as stored on bookings and
machines. -/
structure Coordinates where
  latitude : ℚ
  longitude : ℚ
deriving DecidableEq

/-- JavaScript's `Math.atan2 y x` (note the argument order), on real
numbers. -/
noncomputable def atan2 (y x : ℝ) : ℝ :=
  if 0 < x then Real.arctan (y / x)
  else if x < 0 then
    (if 0 ≤ y then Real.arctan (y / x) + Real.pi else Real.arctan (y / x) - Real.pi)
  else
    (if 0 < y then Real.pi / 2 else if y < 0 then -(Real.pi / 2) else 0)

/-- Degrees-to-radians conversion `q * Math.PI / 180` used by
`calculateDistance`. -/
noncomputable def radOf (q : ℚ) : ℝ := (q : ℝ) * Real.pi / 180

/-- The latitude difference `dLat = (coord2.latitude - coord1.latitude) * π/180`
of `calculateDistance`. -/
noncomputable def dLatR (c1 c2 : Coordinates) : ℝ :=
  ((c2.latitude : ℝ) - (c1.latitude : ℝ)) * Real.pi / 180

/-- The longitude difference `dLon` of `calculateDistance`. -/
noncomputable def dLonR (c1 c2 : Coordinates) : ℝ :=
  ((c2.longitude : ℝ) - (c1.longitude : ℝ)) * Real.pi / 180

/-- The intermediate value `a` of the Haversine formula in
`calculateDistance`:
`sin(dLat/2)·sin(dLat/2) + cos(lat1)·cos(lat2)·sin(dLon/2)·sin(dLon/2)`. -/
noncomputable def havTerm (c1 c2 : Coordinates) : ℝ :=
  Real.sin (dLatR c1 c2 / 2) * Real.sin (dLatR c1 c2 / 2) +
    Real.cos (radOf c1.latitude) * Real.cos (radOf c2.latitude) *
      Real.sin (dLonR c1 c2 / 2) * Real.sin (dLonR c1 c2 / 2)

/-- `calculateDistance(coord1, coord2)` of `src/backend/models/index.js`.

The source guard is
`if (!coord1?.latitude || !coord1?.longitude || !coord2?.latitude || !coord2?.longitude) return 0;`
— it fires when either argument is missing *or* when any of the four
numeric components is `0` (JavaScript truthiness), and then the function
returns `0`.  Otherwise the Haversine great-circle distance (Earth radius
6371 km) is computed and rounded to one decimal place via
`Math.round(R * c * 10) / 10`. -/
noncomputable def calculateDistance (coord1 coord2 : Option Coordinates) : ℝ :=
  match coord1, coord2 with
  | some c1, some c2 =>
    if c1.latitude = 0 ∨ c1.longitude = 0 ∨ c2.latitude = 0 ∨ c2.longitude = 0 then 0
    else
      ((round ((6371 : ℝ) *
          (2 * atan2 (Real.sqrt (havTerm c1 c2)) (Real.sqrt (1 - havTerm c1 c2))) * 10) : ℤ) : ℝ)
        / 10
  | _, _ => 0

/-- `calculateTravelTime(distanceKm)`:
`Math.ceil((distanceKm / 30) * 60)` minutes at 30 km/h. -/
noncomputable def calculateTravelTime (distanceKm : ℝ) : ℤ :=
  ⌈distanceKm / 30 * 60⌉

theorem havTerm_comm (c1 c2 : Coordinates) : havTerm c1 c2 = havTerm c2 c1 := by
  unfold havTerm dLatR dLonR radOf
  rw [show ((c1.latitude : ℝ) - (c2.latitude : ℝ)) * Real.pi / 180 / 2 =
        -(((c2.latitude : ℝ) - (c1.latitude : ℝ)) * Real.pi / 180 / 2) by ring,
      show ((c1.longitude : ℝ) - (c2.longitude : ℝ)) * Real.pi / 180 / 2 =
        -(((c2.longitude : ℝ) - (c1.longitude : ℝ)) * Real.pi / 180 / 2) by ring,
      Real.sin_neg, Real.sin_neg]
  ring

theorem havTerm_self (c : Coordinates) : havTerm c c = 0 := by
  unfold havTerm dLatR dLonR
  simp

theorem calculateDistance_some_some (c1 c2 : Coordinates) :
    calculateDistance (some c1) (some c2) =
      if c1.latitude = 0 ∨ c1.longitude = 0 ∨ c2.latitude = 0 ∨ c2.longitude = 0 then 0
      else
        ((round ((6371 : ℝ) *
            (2 * atan2 (Real.sqrt (havTerm c1 c2)) (Real.sqrt (1 - havTerm c1 c2))) * 10) : ℤ) : ℝ)
          / 10 := rfl

theorem calculateDistance_comm (a b : Option Coordinates) :
    calculateDistance a b = calculateDistance b a := by
  match a, b with
  | none, none => rfl
  | none, some c => rfl
  | some c, none => rfl
  | some c1, some c2 =>
    show calculateDistance (some c1) (some c2) = calculateDistance (some c2) (some c1)
    rw [calculateDistance_some_some, calculateDistance_some_some]
    by_cases h : c1.latitude = 0 ∨ c1.longitude = 0 ∨ c2.latitude = 0 ∨ c2.longitude = 0
    · rw [if_pos h, if_pos (by tauto)]
    · rw [if_neg h, if_neg (by tauto), havTerm_comm]

theorem calculateDistance_self (a : Option Coordinates) :
    calculateDistance a a = 0 := by
  match a with
  | none => rfl
  | some c =>
    show calculateDistance (some c) (some c) = 0
    rw [calculateDistance_some_some]
    by_cases h : c.latitude = 0 ∨ c.longitude = 0 ∨ c.latitude = 0 ∨ c.longitude = 0
    · rw [if_pos h]
    · rw [if_neg h, havTerm_self]
      simp [atan2, Real.sqrt_zero, Real.sqrt_one]

/-- C8: `calculateDistance` is symmetric in its two coordinate arguments,
and the distance from any coordinate (or missing coordinate) to itself
is `0`. -/
theorem calculateDistance_symm_and_self :
    (∀ a b : Option Coordinates, calculateDistance a b = calculateDistance b a) ∧
      (∀ a : Option Coordinates, calculateDistance a a = 0) :=
  ⟨calculateDistance_comm, calculateDistance_self⟩

/-! ## Data model -/

/-- The `timeSlots` sub-document stored on a booking once scheduled.  The
source keeps `startTime`/`endTime` as `"HH:MM"` strings; the embedding keeps
the parsed minutes-since-midnight values (`parseTime` of the strings). -/
structure TimeSlots where
  startTime : ℕ
  endTime : ℕ
deriving DecidableEq

/-- The `fieldLocation` sub-document of a booking. -/
structure FieldLocation where
  coordinates : Option Coordinates
  village : Option String
  district : Option String
deriving DecidableEq

/-- A booking record as consumed by the scheduler.  `_calculatedDistance` is
the scratch field that `sortByLocation` writes onto booking objects
(`none` models the field being absent). -/
structure Booking where
  _id : String
  priority : Option ℤ
  estimatedDuration : Option ℕ
  acres : Option ℚ
  fieldLocation : Option FieldLocation
  timeSlots : Option TimeSlots
  _calculatedDistance : Option ℝ

/-- The `availability` sub-document of a machine. -/
structure Availability where
  workingHoursStart : Option ℤ
  workingHoursEnd : Option ℤ
deriving DecidableEq

/-- The `location` sub-document of a machine. -/
structure MachineLocation where
  coordinates : Option Coordinates
deriving DecidableEq

/-- A machine document, as read by the scheduler. -/
structure Machine where
  availability : Option Availability
  location : Option MachineLocation
  dailyCapacityAcres : Option ℚ
deriving DecidableEq

/-- JavaScript `v || d` on an optional integer: `undefined`, `null` and `0`
are falsy and give the default. -/
def jsOrI (v : Option ℤ) (d : ℤ) : ℤ :=
  match v with
  | none => d
  | some x => if x = 0 then d else x

/-- JavaScript `v || d` on an optional natural number. -/
def jsOrN (v : Option ℕ) (d : ℕ) : ℕ :=
  match v with
  | none => d
  | some x => if x = 0 then d else x

/-- JavaScript `v || d` on an optional rational. -/
def jsOrQ (v : Option ℚ) (d : ℚ) : ℚ :=
  match v with
  | none => d
  | some x => if x = 0 then d else x

/-- JavaScript `coords || fallback` on coordinate objects: any object is
truthy, so a present coordinate always wins. -/
def jsOrLoc (c : Option Coordinates) (p : Option Coordinates) : Option Coordinates :=
  match c with
  | some x => some x
  | none => p

/-- `booking.fieldLocation?.coordinates`. -/
def bookingCoords (b : Booking) : Option Coordinates :=
  b.fieldLocation.bind (·.coordinates)

/-- Truthiness of `bookingCoords?.latitude` in `sortByLocation`: the
coordinates are present and the latitude is a nonzero number. -/
def coordsLatTruthy (c : Option Coordinates) : Bool :=
  match c with
  | none => false
  | some cc => decide (¬ cc.latitude = 0)

/-! ## `sortByLocation` (nearest-neighbor sequencer) -/

/-- The `nearestIndex` / `nearestDistance` pair maintained by the inner
`forEach` of `sortByLocation`.  `nearestDistance = none` models the initial
`Infinity`; every computed distance is below it. -/
structure NearestAcc where
  nearestIndex : ℕ
  nearestDistance : Option ℝ

/-- One `forEach` iteration of `sortByLocation`'s nearest-candidate scan:
`p = (index, booking)`.  If the cursor is null or the candidate's latitude
is falsy, the priority fallback runs (`booking.priority || 1` against
`remaining[nearestIndex]?.priority || 1`, strictly greater wins); otherwise
the candidate is ranked by `calculateDistance` against the cursor, strictly
smaller distance wins.  Ties keep the earlier index. -/
noncomputable def nnVisit (currentLocation : Option Coordinates) (remaining : List Booking)
    (acc : NearestAcc) (p : ℕ × Booking) : NearestAcc :=
  let bcoords := bookingCoords p.2
  if currentLocation.isNone || !(coordsLatTruthy bcoords) then
    let priorityScore := jsOrI p.2.priority 1
    if priorityScore > jsOrI ((remaining.get? acc.nearestIndex).bind (·.priority)) 1 then
      { acc with nearestIndex := p.1 }
    else acc
  else
    let distance := calculateDistance currentLocation bcoords
    match acc.nearestDistance with
    | none => ⟨p.1, some distance⟩
    | some nd => if distance < nd then ⟨p.1, some distance⟩ else acc

/-- The value stored into `_calculatedDistance`:
`nearestDistance === Infinity ? 0 : nearestDistance`. -/
def nearestDistVal : Option ℝ → ℝ
  | none => 0
  | some d => d

theorem nnVisit_index_lt (currentLocation : Option Coordinates) (remaining : List Booking)
    {n : ℕ} (ps : List (ℕ × Booking)) (hps : ∀ p ∈ ps, p.1 < n) (acc : NearestAcc)
    (hacc : acc.nearestIndex < n) :
    (ps.foldl (nnVisit currentLocation remaining) acc).nearestIndex < n := by
  induction ps generalizing acc with
  | nil => exact hacc
  | cons p ps ih =>
    refine ih (fun q hq => hps q (List.mem_cons_of_mem _ hq)) _ ?_
    have hp := hps p (List.mem_cons_self _ _)
    unfold nnVisit
    dsimp only
    split
    · split
      · exact hp
      · exact hacc
    · split
      · exact hp
      · split
        · exact hp
        · exact hacc

/-- The whole `forEach` scan of one `while` round of `sortByLocation`:
fold `nnVisit` over the indexed `remaining` list starting from
`nearestIndex = 0`, `nearestDistance = Infinity`. -/
noncomputable def nnPick (currentLocation : Option Coordinates)
    (remaining : List Booking) : NearestAcc :=
  remaining.enum.foldl (nnVisit currentLocation remaining) ⟨0, none⟩

theorem nnPick_index_lt (currentLocation : Option Coordinates) (remaining : List Booking)
    (h : 0 < remaining.length) :
    (nnPick currentLocation remaining).nearestIndex < remaining.length := by
  refine nnVisit_index_lt currentLocation remaining remaining.enum ?_ _ h
  intro p hp
  have := List.mem_enum_iff_get?.mp hp
  exact (List.get?_eq_some.mp this).1

/-- The `while (remaining.length > 0)` loop of `sortByLocation`.  Each round
scans `remaining` for the nearest candidate, splices it out, stamps its
`_calculatedDistance`, and advances the cursor to its coordinates when it
has any.  Returns the sorted list together with the final cursor (the
cursor is returned only so that the specification's "carried across tiers"
variant can be expressed; the source keeps it in a local variable). -/
noncomputable def sortByLocationLoop :
    List Booking → Option Coordinates → List Booking × Option Coordinates
  | [], currentLocation => ([], currentLocation)
  | hd :: tl, currentLocation =>
    let remaining := hd :: tl
    let acc := nnPick currentLocation remaining
    let nearestBooking := (remaining.get? acc.nearestIndex).getD hd
    let updated := { nearestBooking with _calculatedDistance := some (nearestDistVal acc.nearestDistance) }
    let nextLocation := jsOrLoc (bookingCoords nearestBooking) currentLocation
    let rest := remaining.eraseIdx acc.nearestIndex
    let rec' := sortByLocationLoop rest nextLocation
    (updated :: rec'.1, rec'.2)
termination_by remaining _ => remaining.length
decreasing_by
  show (List.eraseIdx (hd :: tl) _).length < (hd :: tl).length
  rw [List.length_eraseIdx_of_lt (nnPick_index_lt currentLocation (hd :: tl) (Nat.succ_pos _))]
  simp

/-- `sortByLocation(bookings, startLocation)`: nearest-neighbor ordering of
the bookings starting from `startLocation` (`startLocation || null` in the
source; a missing start is `none`).  Lists of at most one element are
returned untouched (in particular without a `_calculatedDistance` stamp). -/
noncomputable def sortByLocation (bookings : List Booking)
    (startLocation : Option Coordinates) : List Booking :=
  if bookings.length ≤ 1 then bookings
  else (sortByLocationLoop bookings startLocation).1

/-! ## `scheduleJobs` (priority partition, per-tier sequencing, slot assignment) -/

/-- `machine?.availability?.workingHoursStart || 8`. -/
def machineWorkingHoursStart (machine : Option Machine) : ℤ :=
  jsOrI ((machine.bind (·.availability)).bind (·.workingHoursStart)) 8

/-- `machine?.availability?.workingHoursEnd || 18`. -/
def machineWorkingHoursEnd (machine : Option Machine) : ℤ :=
  jsOrI ((machine.bind (·.availability)).bind (·.workingHoursEnd)) 18

/-- `machine?.location?.coordinates`. -/
def machineLocationCoords (machine : Option Machine) : Option Coordinates :=
  (machine.bind (·.location)).bind (·.coordinates)

/-- A scheduled slot as pushed by `scheduleJobs`.  `startTime`/`endTime` are
kept as minutes since midnight (the source stores `formatTime` of these
values). -/
structure ScheduledSlot where
  bookingId : String
  startTime : ℤ
  endTime : ℤ
  order : ℕ
  duration : ℕ
  distanceFromPrevious : ℝ
  travelTime : ℤ
  acres : Option ℚ
  village : String

/-- JavaScript `v || d` on an optional string (the empty string is falsy). -/
def jsOrS (v : Option String) (d : String) : String :=
  match v with
  | none => d
  | some s => if s = "" then d else s

/-- The mutable state of `scheduleJobs`' assignment loop: the running clock
`currentTime`, the `previousLocation` cursor, the `slotOrder` counter, and
the slots pushed so far.  Each pushed slot is paired with the booking that
produced it; the `Booking` component is ghost instrumentation (the source
pushes only the slot object) used to state which bookings were accepted. -/
structure SchedState where
  currentTime : ℤ
  previousLocation : Option Coordinates
  slotOrder : ℕ
  slots : List (Booking × ScheduledSlot)

/-- `distanceFromPrevious` for a candidate booking:
`previousLocation && bookingCoords ? calculateDistance(previousLocation, bookingCoords) : 0`. -/
noncomputable def distanceFromPreviousOf (st : SchedState) (b : Booking) : ℝ :=
  if st.previousLocation.isSome && (bookingCoords b).isSome then
    calculateDistance st.previousLocation (bookingCoords b)
  else 0

/-- `bufferTime = Math.max(15, travelTime)`. -/
noncomputable def bufferTimeOf (st : SchedState) (b : Booking) : ℤ :=
  max 15 (calculateTravelTime (distanceFromPreviousOf st b))

/-- `jobStartTime = currentTime + (slotOrder > 1 ? bufferTime : 0)`. -/
noncomputable def jobStartOf (st : SchedState) (b : Booking) : ℤ :=
  st.currentTime + (if st.slotOrder > 1 then bufferTimeOf st b else 0)

/-- `jobDuration = booking.estimatedDuration || 60`. -/
def jobDurationOf (b : Booking) : ℕ :=
  jsOrN b.estimatedDuration 60

/-- `jobEndTime = jobStartTime + jobDuration`. -/
noncomputable def jobEndOf (st : SchedState) (b : Booking) : ℤ :=
  jobStartOf st b + (jobDurationOf b : ℤ)

/-- One iteration of `scheduleJobs`' `for (const booking of sortedBookings)`
loop.  A booking whose end would exceed `endTime` is skipped (`continue`)
leaving the whole state unchanged; otherwise a slot is pushed and the
clock, cursor and order counter advance. -/
noncomputable def scheduleStep (endTime : ℤ) (st : SchedState) (booking : Booking) : SchedState :=
  if jobEndOf st booking > endTime then st
  else
    { currentTime := jobEndOf st booking
      previousLocation := jsOrLoc (bookingCoords booking) st.previousLocation
      slotOrder := st.slotOrder + 1
      slots := st.slots ++
        [(booking,
          { bookingId := booking._id
            startTime := jobStartOf st booking
            endTime := jobEndOf st booking
            order := st.slotOrder
            duration := jobDurationOf booking
            distanceFromPrevious := distanceFromPreviousOf st booking
            travelTime := bufferTimeOf st booking
            acres := booking.acres
            village := jsOrS (booking.fieldLocation.bind (·.village)) "Unknown" })] }

/-- Steps 1–3 of `scheduleJobs`: partition by priority tier
(`priority === 3`, `priority === 2`, `(priority || 1) === 1`), sort each
tier by location starting from the machine's coordinates, and concatenate
urgent ++ high ++ normal. -/
noncomputable def orderBookings (bookings : List Booking)
    (machineLocation : Option Coordinates) : List Booking :=
  sortByLocation (bookings.filter fun b => decide (b.priority = some 3)) machineLocation ++
    sortByLocation (bookings.filter fun b => decide (b.priority = some 2)) machineLocation ++
      sortByLocation (bookings.filter fun b => decide (jsOrI b.priority 1 = 1)) machineLocation

/-- `scheduleJobs`, instrumented: the final slot list, each slot paired with
the booking that produced it. -/
noncomputable def schedulePairs (bookings : List Booking) (machine : Option Machine) :
    List (Booking × ScheduledSlot) :=
  if bookings.isEmpty then []
  else
    ((orderBookings bookings (machineLocationCoords machine)).foldl
      (scheduleStep (machineWorkingHoursEnd machine * 60))
      { currentTime := machineWorkingHoursStart machine * 60
        previousLocation := machineLocationCoords machine
        slotOrder := 1
        slots := [] }).slots

/-- `scheduleJobs(bookings, machine)` of `src/backend/models/index.js`:
the ordered list of scheduled slots. -/
noncomputable def scheduleJobs (bookings : List Booking) (machine : Option Machine) :
    List ScheduledSlot :=
  (schedulePairs bookings machine).map (·.2)

/-! ## `calculateOptimalRoute` -/

/-- One stop of the route summary. -/
structure RouteStop where
  bookingId : String
  village : Option String
  district : Option String
  acres : Option ℚ
  distanceFromPrevious : ℝ

/-- The route summary returned by `calculateOptimalRoute`. -/
structure RouteSummary where
  totalDistance : ℝ
  totalStops : ℕ
  stops : List RouteStop

/-- `calculateOptimalRoute(bookings, startLocation)`: sorts by location and
accumulates leg distances. -/
noncomputable def calculateOptimalRoute (bookings : List Booking)
    (startLocation : Option Coordinates) : RouteSummary :=
  let sortedBookings := sortByLocation bookings startLocation
  let final := sortedBookings.foldl
    (fun (acc : ℝ × Option Coordinates × List RouteStop) booking =>
      let bcoords := bookingCoords booking
      let distance := calculateDistance acc.2.1 bcoords
      (acc.1 + distance,
       jsOrLoc bcoords acc.2.1,
       acc.2.2 ++
         [{ bookingId := booking._id
            village := booking.fieldLocation.bind (·.village)
            district := booking.fieldLocation.bind (·.district)
            acres := booking.acres
            distanceFromPrevious := distance }]))
    (0, startLocation, [])
  { totalDistance := ((round (final.1 * 10) : ℤ) : ℝ) / 10
    totalStops := final.2.2.length
    stops := final.2.2 }

/-! ## `calculateUtilization` -/

/-- The utilization report.  The two percentage fields are `Option ℤ`:
`some p` models the JavaScript string `"p%"`, and `none` models the
non-finite value (`NaN` or `Infinity`) that `Math.round` propagates when the
divisor is `0`. -/
structure UtilizationReport where
  totalWorkingMinutes : ℤ
  bookedMinutes : ℕ
  availableMinutes : ℤ
  timeUtilization : Option ℤ
  totalAcres : ℚ
  acresCapacity : ℚ
  acresUtilization : Option ℤ
  bookingCount : ℕ
deriving DecidableEq

/-- `calculateUtilization(bookings, machine)` of
`src/backend/models/index.js`. -/
def calculateUtilization (bookings : List Booking) (machine : Option Machine) :
    UtilizationReport :=
  let totalWorkingMinutes :=
    (machineWorkingHoursEnd machine - machineWorkingHoursStart machine) * 60
  let totalBookedMinutes := (bookings.map fun b => b.estimatedDuration.getD 0).sum
  let totalAcres := (bookings.map fun b => b.acres.getD 0).sum
  let acresCapacity := jsOrQ (machine.bind (·.dailyCapacityAcres)) 10
  { totalWorkingMinutes := totalWorkingMinutes
    bookedMinutes := totalBookedMinutes
    availableMinutes := totalWorkingMinutes - totalBookedMinutes
    timeUtilization :=
      if totalWorkingMinutes = 0 then none
      else some (round ((totalBookedMinutes : ℚ) / (totalWorkingMinutes : ℚ) * 100))
    totalAcres := totalAcres
    acresCapacity := acresCapacity
    acresUtilization :=
      if acresCapacity = 0 then none
      else some (round (totalAcres / acresCapacity * 100))
    bookingCount := bookings.length }

/-! ## `getAvailableSlots` -/

/-- A candidate window pushed by `getAvailableSlots` (times in minutes). -/
structure AvailableSlot where
  startTime : ℤ
  endTime : ℤ
  gapDuration : ℤ
deriving DecidableEq

/-- `parseTime(booking.timeSlots.startTime)` (0 when absent; the source
never reads it on a filtered-out booking). -/
def slotStartOf (b : Booking) : ℕ :=
  (b.timeSlots.map (·.startTime)).getD 0

/-- `parseTime(booking.timeSlots.endTime)`. -/
def slotEndOf (b : Booking) : ℕ :=
  (b.timeSlots.map (·.endTime)).getD 0

/-- One iteration of `getAvailableSlots`' walk: the state is the current
time (initially the window start, afterwards the previous booking's end)
and the candidates accumulated so far; a gap of at least the requested
duration before the booking pushes a candidate anchored at the gap's
start. -/
def availStep (requiredDuration : ℤ) (acc : ℤ × List AvailableSlot)
    (booking : Booking) : ℤ × List AvailableSlot :=
  let bookingStart := (slotStartOf booking : ℤ)
  let gapDuration := bookingStart - acc.1
  ((slotEndOf booking : ℤ),
   if gapDuration ≥ requiredDuration then
     acc.2 ++ [{ startTime := acc.1
                 endTime := acc.1 + requiredDuration
                 gapDuration := gapDuration }]
   else acc.2)

/-- `getAvailableSlots(existingBookings, machine, requiredDuration)` of
`src/backend/models/index.js`: filters the bookings that carry a
`timeSlots.startTime`, sorts them by start time (a stable sort, as
JavaScript's `Array.prototype.sort`), then walks them accumulating the gap
before each booking and the gap after the last one. -/
def getAvailableSlots (existingBookings : List Booking) (machine : Option Machine)
    (requiredDuration : ℤ) : List AvailableSlot :=
  let workingHoursStart := machineWorkingHoursStart machine * 60
  let workingHoursEnd := machineWorkingHoursEnd machine * 60
  let sortedBookings :=
    (existingBookings.filter fun b => b.timeSlots.isSome).insertionSort
      fun a b => slotStartOf a ≤ slotStartOf b
  let final := sortedBookings.foldl (availStep requiredDuration) (workingHoursStart, [])
  let remainingTime := workingHoursEnd - final.1
  if remainingTime ≥ requiredDuration then
    final.2 ++ [{ startTime := final.1
                  endTime := final.1 + requiredDuration
                  gapDuration := remainingTime }]
  else final.2

/-- Follows the spec's words (refinement reference for C9): the gaps of a
time-ordered slot list are the intervals from the window start (resp. each
slot's end) to the next slot's start (resp. the window end); every gap of
length at least the requested duration contributes the candidate window
`[gapStart, gapStart + duration)` anchored at the gap's start. -/
def specAvailableGaps (slots : List TimeSlots) (wS wE requiredDuration : ℤ) :
    List AvailableSlot :=
  (((wS :: slots.map fun s => (s.endTime : ℤ))).zip
      ((slots.map fun s => (s.startTime : ℤ)) ++ [wE])).filterMap
    fun p =>
      if p.2 - p.1 ≥ requiredDuration then
        some { startTime := p.1, endTime := p.1 + requiredDuration, gapDuration := p.2 - p.1 }
      else none

/-! ## Specification-side variants (for C3 and C10) -/

/-- Modelled from the spec (§4.3 RouteSequencer), for claim C3: the
nearest-neighbor cursor is "initialized to the asset's home coordinates and
carried across tiers (not reset between tiers)" — the high tier starts from
the cursor left by the urgent tier, and the normal tier from the cursor left
by the high tier.  The per-tier loop itself is the one of the source. -/
noncomputable def scheduleOrderCarried (bookings : List Booking)
    (machineLocation : Option Coordinates) : List Booking :=
  let u := sortByLocationLoop (bookings.filter fun b => decide (b.priority = some 3))
    machineLocation
  let h := sortByLocationLoop (bookings.filter fun b => decide (b.priority = some 2)) u.2
  let n := sortByLocationLoop (bookings.filter fun b => decide (jsOrI b.priority 1 = 1)) h.2
  u.1 ++ h.1 ++ n.1

/-- Truthiness of a whole coordinate pair: present with both components
nonzero (this is what `calculateDistance`'s guard actually tests). -/
def coordsFullyTruthy (c : Option Coordinates) : Bool :=
  match c with
  | none => false
  | some cc => decide (¬ cc.latitude = 0) && decide (¬ cc.longitude = 0)

/-- Modelled from claim C10's reading of `sortByLocation`: a candidate whose
coordinate has latitude `0` *or* longitude `0` is treated "as if the
coordinate were missing", i.e. it is ranked by the priority fallback instead
of by distance.  Identical to `nnVisit` except for the branch condition. -/
noncomputable def nnVisitZeroMissing (currentLocation : Option Coordinates)
    (remaining : List Booking) (acc : NearestAcc) (p : ℕ × Booking) : NearestAcc :=
  let bcoords := bookingCoords p.2
  if currentLocation.isNone || !(coordsFullyTruthy bcoords) then
    let priorityScore := jsOrI p.2.priority 1
    if priorityScore > jsOrI ((remaining.get? acc.nearestIndex).bind (·.priority)) 1 then
      { acc with nearestIndex := p.1 }
    else acc
  else
    let distance := calculateDistance currentLocation bcoords
    match acc.nearestDistance with
    | none => ⟨p.1, some distance⟩
    | some nd => if distance < nd then ⟨p.1, some distance⟩ else acc

theorem nnVisitZeroMissing_index_lt (currentLocation : Option Coordinates)
    (remaining : List Booking) {n : ℕ} (ps : List (ℕ × Booking))
    (hps : ∀ p ∈ ps, p.1 < n) (acc : NearestAcc) (hacc : acc.nearestIndex < n) :
    (ps.foldl (nnVisitZeroMissing currentLocation remaining) acc).nearestIndex < n := by
  induction ps generalizing acc with
  | nil => exact hacc
  | cons p ps ih =>
    refine ih (fun q hq => hps q (List.mem_cons_of_mem _ hq)) _ ?_
    have hp := hps p (List.mem_cons_self _ _)
    unfold nnVisitZeroMissing
    dsimp only
    split
    · split
      · exact hp
      · exact hacc
    · split
      · exact hp
      · split
        · exact hp
        · exact hacc

/-- The `forEach` scan under claim C10's reading. -/
noncomputable def nnPickZM (currentLocation : Option Coordinates)
    (remaining : List Booking) : NearestAcc :=
  remaining.enum.foldl (nnVisitZeroMissing currentLocation remaining) ⟨0, none⟩

theorem nnPickZM_index_lt (currentLocation : Option Coordinates) (remaining : List Booking)
    (h : 0 < remaining.length) :
    (nnPickZM currentLocation remaining).nearestIndex < remaining.length := by
  refine nnVisitZeroMissing_index_lt currentLocation remaining remaining.enum ?_ _ h
  intro p hp
  have := List.mem_enum_iff_get?.mp hp
  exact (List.get?_eq_some.mp this).1

/-- The loop of `sortByLocation` under claim C10's reading (zero-component
coordinates treated as missing). -/
noncomputable def sortByLocationLoopZM :
    List Booking → Option Coordinates → List Booking × Option Coordinates
  | [], currentLocation => ([], currentLocation)
  | hd :: tl, currentLocation =>
    let remaining := hd :: tl
    let acc := nnPickZM currentLocation remaining
    let nearestBooking := (remaining.get? acc.nearestIndex).getD hd
    let updated := { nearestBooking with _calculatedDistance := some (nearestDistVal acc.nearestDistance) }
    let nextLocation := jsOrLoc (bookingCoords nearestBooking) currentLocation
    let rest := remaining.eraseIdx acc.nearestIndex
    let rec' := sortByLocationLoopZM rest nextLocation
    (updated :: rec'.1, rec'.2)
termination_by remaining _ => remaining.length
decreasing_by
  show (List.eraseIdx (hd :: tl) _).length < (hd :: tl).length
  rw [List.length_eraseIdx_of_lt (nnPickZM_index_lt currentLocation (hd :: tl) (Nat.succ_pos _))]
  simp

/-- `sortByLocation` under claim C10's reading. -/
noncomputable def sortByLocationZeroMissing (bookings : List Booking)
    (startLocation : Option Coordinates) : List Booking :=
  if bookings.length ≤ 1 then bookings
  else (sortByLocationLoopZM bookings startLocation).1

/-! ## Structural lemmas about the sequencer -/

/-- Erase the `_calculatedDistance` scratch field. -/
def clearCalc (b : Booking) : Booking :=
  { b with _calculatedDistance := none }

theorem perm_getElem_cons_eraseIdx {α : Type _} (l : List α) (i : ℕ) (h : i < l.length) :
    l.Perm (l[i] :: l.eraseIdx i) := by
  conv_lhs => rw [← List.take_append_drop i l, List.drop_eq_getElem_cons h]
  rw [List.eraseIdx_eq_take_drop_succ]
  exact List.perm_middle

theorem sortByLocationLoop_nil (cur : Option Coordinates) :
    sortByLocationLoop [] cur = ([], cur) := by
  rw [sortByLocationLoop]

theorem sortByLocationLoop_cons (hd : Booking) (tl : List Booking) (cur : Option Coordinates) :
    sortByLocationLoop (hd :: tl) cur =
      ({ ((hd :: tl).get? (nnPick cur (hd :: tl)).nearestIndex).getD hd with
           _calculatedDistance :=
             some (nearestDistVal (nnPick cur (hd :: tl)).nearestDistance) } ::
         (sortByLocationLoop ((hd :: tl).eraseIdx (nnPick cur (hd :: tl)).nearestIndex)
           (jsOrLoc
             (bookingCoords (((hd :: tl).get? (nnPick cur (hd :: tl)).nearestIndex).getD hd))
             cur)).1,
       (sortByLocationLoop ((hd :: tl).eraseIdx (nnPick cur (hd :: tl)).nearestIndex)
         (jsOrLoc
           (bookingCoords (((hd :: tl).get? (nnPick cur (hd :: tl)).nearestIndex).getD hd))
           cur)).2) := by
  rw [sortByLocationLoop]

theorem sortByLocationLoop_length (rem : List Booking) (cur : Option Coordinates) :
    (sortByLocationLoop rem cur).1.length = rem.length := by
  generalize hn : rem.length = n
  induction n using Nat.strong_induction_on generalizing rem cur with
  | _ n ih =>
    match rem, hn with
    | [], hn => rw [sortByLocationLoop_nil]; exact hn
    | hd :: tl, hn =>
      have hlt := nnPick_index_lt cur (hd :: tl) (Nat.succ_pos _)
      have hlen : ((hd :: tl).eraseIdx (nnPick cur (hd :: tl)).nearestIndex).length
          = tl.length := by
        rw [List.length_eraseIdx_of_lt hlt]; simp
      have hn' : tl.length + 1 = n := by simpa using hn
      rw [sortByLocationLoop_cons]
      simp only [List.length_cons]
      rw [ih tl.length (by omega) _ _ hlen]
      exact hn'

theorem sortByLocationLoop_clearCalc_perm (rem : List Booking) (cur : Option Coordinates) :
    ((sortByLocationLoop rem cur).1.map clearCalc).Perm (rem.map clearCalc) := by
  generalize hn : rem.length = n
  induction n using Nat.strong_induction_on generalizing rem cur with
  | _ n ih =>
    match rem, hn with
    | [], hn => rw [sortByLocationLoop_nil]
    | hd :: tl, hn =>
      have hlt := nnPick_index_lt cur (hd :: tl) (Nat.succ_pos _)
      have hlen : ((hd :: tl).eraseIdx (nnPick cur (hd :: tl)).nearestIndex).length
          = tl.length := by
        rw [List.length_eraseIdx_of_lt hlt]; simp
      have hn' : tl.length + 1 = n := by simpa using hn
      have hnb : ((hd :: tl).get? (nnPick cur (hd :: tl)).nearestIndex).getD hd
          = (hd :: tl)[(nnPick cur (hd :: tl)).nearestIndex] := by
        rw [List.get?_eq_getElem?, List.getElem?_eq_getElem hlt]
        rfl
      rw [sortByLocationLoop_cons]
      simp only [List.map_cons]
      have hperm :=
        (perm_getElem_cons_eraseIdx (hd :: tl) (nnPick cur (hd :: tl)).nearestIndex hlt).map
          clearCalc
      simp only [List.map_cons] at hperm
      refine List.Perm.trans ?_ hperm.symm
      rw [show clearCalc { ((hd :: tl).get? (nnPick cur (hd :: tl)).nearestIndex).getD hd with
            _calculatedDistance :=
              some (nearestDistVal (nnPick cur (hd :: tl)).nearestDistance) }
          = clearCalc (((hd :: tl).get? (nnPick cur (hd :: tl)).nearestIndex).getD hd) from rfl,
        hnb]
      exact List.Perm.cons _ (ih tl.length (by omega) _ _ hlen)

theorem sortByLocation_clearCalc_perm (bookings : List Booking) (cur : Option Coordinates) :
    ((sortByLocation bookings cur).map clearCalc).Perm (bookings.map clearCalc) := by
  unfold sortByLocation
  split
  · exact List.Perm.refl _
  · exact sortByLocationLoop_clearCalc_perm bookings cur

theorem sortByLocation_length (bookings : List Booking) (cur : Option Coordinates) :
    (sortByLocation bookings cur).length = bookings.length := by
  have := (sortByLocation_clearCalc_perm bookings cur).length_eq
  simpa using this

theorem sortByLocation_mem_priority {b : Booking} {l : List Booking}
    {cur : Option Coordinates} (h : b ∈ sortByLocation l cur) :
    ∃ b0 ∈ l, b0.priority = b.priority := by
  have hmem : clearCalc b ∈ (sortByLocation l cur).map clearCalc :=
    List.mem_map_of_mem clearCalc h
  have := (sortByLocation_clearCalc_perm l cur).mem_iff.mp hmem
  obtain ⟨b0, hb0, heq⟩ := List.mem_map.mp this
  exact ⟨b0, hb0, by
    have : (clearCalc b0).priority = (clearCalc b).priority := by rw [heq]
    simpa [clearCalc] using this⟩

/-! ## The slot-assignment invariant (claims C1, C4, C6) -/

/-- Invariant of the assignment loop of `scheduleJobs`, over the working
window `[wS, wE]` in minutes: the order counter tracks the accepted count;
the clock never precedes the window start and always equals the last
accepted slot's end; every slot lies inside the window with positive
length; slots are pairwise ordered by order, start and end; orders are the
1-based positions; the first slot starts exactly at the window start; each
later slot starts at the previous end plus its own travel buffer; and the
stored buffer is `max 15 (travelTime distanceFromPrevious)`. -/
structure SchedInv (wS wE : ℤ) (st : SchedState) : Prop where
  ordEq : st.slotOrder = st.slots.length + 1
  curGe : wS ≤ st.currentTime
  lastEnd : st.currentTime = (st.slots.getLast?).elim wS fun p => p.2.endTime
  bounds : ∀ p ∈ st.slots,
    wS ≤ p.2.startTime ∧ p.2.endTime ≤ wE ∧ p.2.startTime < p.2.endTime
  endsLe : ∀ p ∈ st.slots, p.2.endTime ≤ st.currentTime
  pairw : st.slots.Pairwise fun a b =>
    a.2.order < b.2.order ∧ a.2.startTime < b.2.startTime ∧ a.2.endTime ≤ b.2.startTime
  orderIdx : ∀ pr ∈ st.slots.enum, pr.2.2.order = pr.1 + 1
  firstStart : (st.slots.head?).elim True fun p => p.2.startTime = wS
  chain : st.slots.Chain' fun a b => b.2.startTime = a.2.endTime + b.2.travelTime
  tvEq : ∀ p ∈ st.slots,
    p.2.travelTime = max 15 (calculateTravelTime p.2.distanceFromPrevious)

theorem jsOrN_none (d : ℕ) : jsOrN none d = d := rfl

theorem jsOrN_some (x d : ℕ) : jsOrN (some x) d = if x = 0 then d else x := rfl

theorem jsOrI_none (d : ℤ) : jsOrI none d = d := rfl

theorem jsOrI_some (x d : ℤ) : jsOrI (some x) d = if x = 0 then d else x := rfl

theorem jobDurationOf_pos (b : Booking) : 1 ≤ jobDurationOf b := by
  unfold jobDurationOf
  rcases b.estimatedDuration with _ | x
  · rw [jsOrN_none]; omega
  · rw [jsOrN_some]
    split <;> omega

theorem jobStartOf_ge {st : SchedState} (b : Booking) : st.currentTime ≤ jobStartOf st b := by
  unfold jobStartOf
  have h15 : (15 : ℤ) ≤ bufferTimeOf st b := le_max_left _ _
  split <;> omega

theorem jobStartOf_lt_end (st : SchedState) (b : Booking) :
    jobStartOf st b < jobEndOf st b := by
  unfold jobEndOf
  have := jobDurationOf_pos b
  have : (1 : ℤ) ≤ (jobDurationOf b : ℤ) := by exact_mod_cast this
  omega

theorem slots_order_le {wS wE : ℤ} {st : SchedState} (inv : SchedInv wS wE st) :
    ∀ p ∈ st.slots, p.2.order ≤ st.slots.length := by
  intro p hp
  obtain ⟨i, hi, hget⟩ := List.mem_iff_getElem.mp hp
  have hmem : (i, p) ∈ st.slots.enum := by
    rw [List.mem_enum_iff_get?]
    rw [List.get?_eq_getElem?, List.getElem?_eq_getElem hi, hget]
  have := inv.orderIdx (i, p) hmem
  simp only at this
  omega

theorem schedInv_init (wS wE : ℤ) (loc : Option Coordinates) :
    SchedInv wS wE
      { currentTime := wS, previousLocation := loc, slotOrder := 1, slots := [] } := by
  refine ⟨rfl, le_refl _, rfl, ?_, ?_, ?_, ?_, ?_, ?_, ?_⟩ <;> simp

theorem schedInv_step {wS wE : ℤ} {st : SchedState} (inv : SchedInv wS wE st) (b : Booking) :
    SchedInv wS wE (scheduleStep wE st b) := by
  unfold scheduleStep
  split
  · exact inv
  · rename_i hfit
    replace hfit : jobEndOf st b ≤ wE := not_lt.mp hfit
    have hdur : (1 : ℤ) ≤ (jobDurationOf b : ℤ) := by exact_mod_cast jobDurationOf_pos b
    have hse := jobStartOf_lt_end st b
    have hge := @jobStartOf_ge st b
    have hcurW := inv.curGe
    have hends : ∀ p ∈ st.slots, p.2.endTime ≤ jobStartOf st b :=
      fun p hp => le_trans (inv.endsLe p hp) hge
    refine ⟨?_, ?_, ?_, ?_, ?_, ?_, ?_, ?_, ?_, ?_⟩
    · -- ordEq
      simp [inv.ordEq]
    · -- curGe
      show wS ≤ jobEndOf st b
      omega
    · -- lastEnd
      show jobEndOf st b = _
      rw [List.getLast?_concat]
      rfl
    · -- bounds
      intro p hp
      rcases List.mem_append.mp hp with hp | hp
      · exact inv.bounds p hp
      · simp only [List.mem_singleton] at hp
        subst hp
        exact ⟨by show wS ≤ jobStartOf st b; omega, hfit, hse⟩
    · -- endsLe
      intro p hp
      rcases List.mem_append.mp hp with hp | hp
      · have := inv.endsLe p hp
        show p.2.endTime ≤ jobEndOf st b
        omega
      · simp only [List.mem_singleton] at hp
        subst hp
        exact le_refl _
    · -- pairw
      rw [List.pairwise_append]
      refine ⟨inv.pairw, List.pairwise_singleton _ _, ?_⟩
      intro a ha y hy
      simp only [List.mem_singleton] at hy
      subst hy
      have hord := slots_order_le inv a ha
      have hbnd := inv.bounds a ha
      have hend := hends a ha
      refine ⟨?_, ?_, hend⟩
      · show a.2.order < st.slotOrder
        rw [inv.ordEq]
        omega
      · show a.2.startTime < jobStartOf st b
        omega
    · -- orderIdx
      intro pr hpr
      have hmem := List.mem_enum_iff_get?.mp hpr
      by_cases hi : pr.1 < st.slots.length
      · rw [List.get?_append hi] at hmem
        exact inv.orderIdx pr (List.mem_enum_iff_get?.mpr hmem)
      · push_neg at hi
        rw [List.get?_append_right hi] at hmem
        match hk : pr.1 - st.slots.length, hmem with
        | 0, hmem =>
          have h1 : pr.1 = st.slots.length := by omega
          simp only [List.get?] at hmem
          have h2 := Option.some_injective _ hmem
          rw [← h2, h1]
          exact inv.ordEq
        | k + 1, hmem => simp [List.get?] at hmem
    · -- firstStart
      match hsl : st.slots with
      | [] =>
        have h1 : st.slotOrder = 1 := by rw [inv.ordEq, hsl]; rfl
        have h2 : st.currentTime = wS := by rw [inv.lastEnd, hsl]; rfl
        show (((([] : List (Booking × ScheduledSlot))) ++ [_]).head?).elim True _
        simp only [List.nil_append, List.head?_cons, Option.elim]
        show jobStartOf st b = wS
        unfold jobStartOf
        rw [h1, h2]
        simp
      | hd :: tl =>
        have hfs := inv.firstStart
        rw [hsl] at hfs
        show (((hd :: tl) ++ [_]).head?).elim True _
        simpa using hfs
    · -- chain
      rw [List.chain'_append]
      refine ⟨inv.chain, List.chain'_singleton _, ?_⟩
      intro a ha y hy
      simp only [List.head?_cons, Option.mem_def, Option.some_inj] at hy
      subst hy
      have hne : st.slots ≠ [] := by
        intro hnil
        rw [hnil] at ha
        simp [List.getLast?] at ha
      have hlast : st.currentTime = a.2.endTime := by
        rw [inv.lastEnd]
        rw [show st.slots.getLast? = some a from ha]
        rfl
      have hgt : st.slotOrder > 1 := by
        rw [inv.ordEq]
        have : st.slots.length ≠ 0 := fun h => hne (List.length_eq_zero.mp h)
        omega
      show jobStartOf st b = a.2.endTime + bufferTimeOf st b
      unfold jobStartOf
      rw [if_pos hgt, hlast]
    · -- tvEq
      intro p hp
      rcases List.mem_append.mp hp with hp | hp
      · exact inv.tvEq p hp
      · simp only [List.mem_singleton] at hp
        subst hp
        rfl

theorem schedInv_foldl {wS wE : ℤ} (l : List Booking) {st : SchedState}
    (inv : SchedInv wS wE st) : SchedInv wS wE (l.foldl (scheduleStep wE) st) := by
  induction l generalizing st with
  | nil => exact inv
  | cons b l ih => exact ih (schedInv_step inv b)

theorem schedulePairs_inv (bookings : List Booking) (machine : Option Machine) :
    ∃ st : SchedState, st.slots = schedulePairs bookings machine ∧
      SchedInv (machineWorkingHoursStart machine * 60) (machineWorkingHoursEnd machine * 60)
        st := by
  unfold schedulePairs
  split
  · exact ⟨_, rfl, schedInv_init _ _ (machineLocationCoords machine)⟩
  · exact ⟨_, rfl, schedInv_foldl _ (schedInv_init _ _ (machineLocationCoords machine))⟩

/-- C1: for every input booking list and machine profile, the slot list
returned by `scheduleJobs` satisfies the output invariants: any earlier slot
has a smaller order, an earlier start, and ends no later than the next
starts (so no two slots overlap and the `order` field increases exactly in
chronological start order); every slot is a nonempty interval lying between
the working-window start and end; and the `order` of the slot at position
`i` is `i + 1`. -/
theorem scheduleJobs_output_invariants (bookings : List Booking) (machine : Option Machine) :
    ((scheduleJobs bookings machine).Pairwise fun a b =>
        a.order < b.order ∧ a.startTime < b.startTime ∧ a.endTime ≤ b.startTime) ∧
      (∀ s ∈ scheduleJobs bookings machine,
        machineWorkingHoursStart machine * 60 ≤ s.startTime ∧
          s.endTime ≤ machineWorkingHoursEnd machine * 60 ∧ s.startTime < s.endTime) ∧
      (∀ pr ∈ (scheduleJobs bookings machine).enum, pr.2.order = pr.1 + 1) := by
  obtain ⟨st, hslots, inv⟩ := schedulePairs_inv bookings machine
  unfold scheduleJobs
  rw [← hslots]
  refine ⟨?_, ?_, ?_⟩
  · exact inv.pairw.map _ fun a b h => h
  · intro s hs
    obtain ⟨p, hp, hps⟩ := List.mem_map.mp hs
    rw [← hps]
    exact inv.bounds p hp
  · intro pr hpr
    rw [List.enum_map] at hpr
    obtain ⟨q, hq, hqe⟩ := List.mem_map.mp hpr
    have := inv.orderIdx q hq
    rw [← hqe]
    simpa using this

/-- C6: for every input, the first accepted slot starts exactly at the
window start (no buffer precedes it); every slot's stored buffer equals
`max 15 (travelTime distanceFromPrevious)` and hence is at least 15
minutes; and every later accepted slot starts exactly at the previous
accepted slot's end plus its own buffer. -/
theorem scheduleJobs_buffer_floor (bookings : List Booking) (machine : Option Machine) :
    (((scheduleJobs bookings machine).head?).elim True fun s =>
        s.startTime = machineWorkingHoursStart machine * 60) ∧
      (∀ s ∈ scheduleJobs bookings machine,
        s.travelTime = max 15 (calculateTravelTime s.distanceFromPrevious) ∧
          15 ≤ s.travelTime) ∧
      ((scheduleJobs bookings machine).Chain' fun a b =>
        b.startTime = a.endTime + b.travelTime) := by
  obtain ⟨st, hslots, inv⟩ := schedulePairs_inv bookings machine
  unfold scheduleJobs
  rw [← hslots]
  refine ⟨?_, ?_, ?_⟩
  · rw [List.head?_map]
    have := inv.firstStart
    match hh : st.slots.head? with
    | none => trivial
    | some p =>
      rw [hh] at this
      exact this
  · intro s hs
    obtain ⟨p, hp, hps⟩ := List.mem_map.mp hs
    rw [← hps]
    refine ⟨inv.tvEq p hp, ?_⟩
    rw [inv.tvEq p hp]
    exact le_max_left _ _
  · rw [List.chain'_map]
    exact inv.chain

/-! ## Priority precedence (claim C4) -/

/-- The priority tier of a booking: 3 for urgent (`priority === 3`), 2 for
high (`priority === 2`), 1 otherwise. -/
def tierOf (b : Booking) : ℕ :=
  if b.priority = some 3 then 3 else if b.priority = some 2 then 2 else 1

theorem schedule_foldl_slots_sublist (wE : ℤ) (l : List Booking) (st : SchedState) :
    ∃ t, (l.foldl (scheduleStep wE) st).slots = st.slots ++ t ∧
      (t.map (·.1)).Sublist l := by
  induction l generalizing st with
  | nil => exact ⟨[], by simp, by simp⟩
  | cons b l ih =>
    by_cases h : jobEndOf st b > wE
    · have hstep : scheduleStep wE st b = st := by
        unfold scheduleStep
        rw [if_pos h]
      obtain ⟨t, ht, hsub⟩ := ih st
      refine ⟨t, ?_, hsub.cons b⟩
      simp only [List.foldl_cons, hstep]
      exact ht
    · obtain ⟨s, hs⟩ : ∃ s, (scheduleStep wE st b).slots = st.slots ++ [(b, s)] := by
        unfold scheduleStep
        rw [if_neg h]
        exact ⟨_, rfl⟩
      obtain ⟨t, ht, hsub⟩ := ih (scheduleStep wE st b)
      refine ⟨(b, s) :: t, ?_, ?_⟩
      · simp only [List.foldl_cons, ht, hs, List.append_assoc, List.singleton_append]
      · simp only [List.map_cons]
        exact hsub.cons₂ b

theorem sortByLocation_mem_of_filter {b : Booking} {l : List Booking}
    {cur : Option Coordinates} {p : Booking → Bool}
    (h : b ∈ sortByLocation (l.filter p) cur) : ∃ b0, p b0 ∧ b0.priority = b.priority := by
  obtain ⟨b0, hb0, hpr⟩ := sortByLocation_mem_priority h
  exact ⟨b0, (List.mem_filter.mp hb0).2, hpr⟩

theorem orderBookings_tier_anti (bookings : List Booking) (loc : Option Coordinates) :
    (orderBookings bookings loc).Pairwise fun a b => tierOf b ≤ tierOf a := by
  have hu : ∀ b ∈ sortByLocation
      (bookings.filter fun b => decide (b.priority = some 3)) loc, tierOf b = 3 := by
    intro b hb
    obtain ⟨b0, hp, hpr⟩ := sortByLocation_mem_of_filter hb
    unfold tierOf
    rw [← hpr, if_pos (by simpa using hp)]
  have hh : ∀ b ∈ sortByLocation
      (bookings.filter fun b => decide (b.priority = some 2)) loc, tierOf b = 2 := by
    intro b hb
    obtain ⟨b0, hp, hpr⟩ := sortByLocation_mem_of_filter hb
    have hp2 : b0.priority = some 2 := by simpa using hp
    unfold tierOf
    rw [← hpr, if_neg (by simp [hp2]), if_pos hp2]
  have hn : ∀ b ∈ sortByLocation
      (bookings.filter fun b => decide (jsOrI b.priority 1 = 1)) loc, tierOf b = 1 := by
    intro b hb
    obtain ⟨b0, hp, hpr⟩ := sortByLocation_mem_of_filter hb
    have hp1 : jsOrI b0.priority 1 = 1 := by simpa using hp
    rw [hpr] at hp1
    have hcases : b.priority = none ∨ b.priority = some 0 ∨ b.priority = some 1 := by
      rcases hx : b.priority with _ | x
      · exact Or.inl rfl
      · rw [hx, jsOrI_some] at hp1
        by_cases hx0 : x = 0
        · subst hx0
          exact Or.inr (Or.inl rfl)
        · rw [if_neg hx0] at hp1
          subst hp1
          exact Or.inr (Or.inr rfl)
    rcases hcases with h | h | h <;> simp [tierOf, h]
  unfold orderBookings
  rw [List.append_assoc, List.pairwise_append]
  refine ⟨?_, ?_, ?_⟩
  · exact List.pairwise_of_forall_mem_list fun a ha b hb => by rw [hu a ha, hu b hb]
  · rw [List.pairwise_append]
    refine ⟨?_, ?_, ?_⟩
    · exact List.pairwise_of_forall_mem_list fun a ha b hb => by rw [hh a ha, hh b hb]
    · exact List.pairwise_of_forall_mem_list fun a ha b hb => by rw [hn a ha, hn b hb]
    · intro a ha b hb
      rw [hh a ha, hn b hb]
      omega
  · intro a ha b hb
    rcases List.mem_append.mp hb with hb | hb
    · rw [hu a ha, hh b hb]
      omega
    · rw [hu a ha, hn b hb]
      omega

/-- C4: the accepted slots, read in output order and paired with their
source bookings (`scheduleJobs` is the second projection of
`schedulePairs`), have non-increasing priority tiers: every accepted
urgent-tier (priority 3) job precedes every accepted high-tier (priority 2)
job, which precedes every accepted normal-tier job, whatever the distances
involved. -/
theorem scheduleJobs_priority_precedence (bookings : List Booking)
    (machine : Option Machine) :
    scheduleJobs bookings machine = (schedulePairs bookings machine).map (·.2) ∧
      (schedulePairs bookings machine).Pairwise fun p q => tierOf q.1 ≤ tierOf p.1 := by
  refine ⟨rfl, ?_⟩
  unfold schedulePairs
  split
  · simp
  · obtain ⟨t, ht, hsub⟩ :=
      schedule_foldl_slots_sublist (machineWorkingHoursEnd machine * 60)
        (orderBookings bookings (machineLocationCoords machine))
        { currentTime := machineWorkingHoursStart machine * 60
          previousLocation := machineLocationCoords machine
          slotOrder := 1
          slots := [] }
    rw [ht]
    simp only [List.nil_append]
    have hp := (orderBookings_tier_anti bookings (machineLocationCoords machine)).sublist hsub
    exact List.pairwise_map.mp hp

/-! ## Claim C2: rejection leaves the loop state unchanged -/

/-- C2: if a candidate's computed end time exceeds the window end, the
assignment loop omits it and leaves the running clock, the location cursor,
the order counter and the emitted slots unchanged, so folding the remaining
candidates from the same state gives exactly the same result as if the
rejected candidate had not been there: a later, shorter job is evaluated
against the same unmoved clock. -/
theorem scheduleStep_reject_unchanged (wE : ℤ) (st : SchedState) (b : Booking)
    (h : jobEndOf st b > wE) :
    ∀ rest : List Booking,
      List.foldl (scheduleStep wE) st (b :: rest) =
        List.foldl (scheduleStep wE) st rest := by
  intro rest
  have hstep : scheduleStep wE st b = st := by
    unfold scheduleStep
    rw [if_pos h]
  simp only [List.foldl_cons, hstep]

/-! ## Claim C3 (amended): the per-tier cursor starts from home -/

/-- C3 (amended): the high-tier segment of the combined order — the slice
of length `|high|` after the first `|urgent|` entries — is exactly the
nearest-neighbor ordering of the high-tier bookings started from the
machine's home coordinates.  In particular the cursor used to pick the
first high-tier job is the home location, independent of the urgent tier's
jobs (the cursor is reset, not carried, between tiers). -/
theorem orderBookings_high_segment (bookings : List Booking) (loc : Option Coordinates) :
    ((orderBookings bookings loc).drop
        ((bookings.filter fun b => decide (b.priority = some 3)).length)).take
      ((bookings.filter fun b => decide (b.priority = some 2)).length) =
      sortByLocation (bookings.filter fun b => decide (b.priority = some 2)) loc := by
  unfold orderBookings
  rw [List.append_assoc]
  rw [show (bookings.filter fun b => decide (b.priority = some 3)).length =
        (sortByLocation (bookings.filter fun b => decide (b.priority = some 3)) loc).length
      from (sortByLocation_length _ _).symm]
  rw [List.drop_left]
  rw [show (bookings.filter fun b => decide (b.priority = some 2)).length =
        (sortByLocation (bookings.filter fun b => decide (b.priority = some 2)) loc).length
      from (sortByLocation_length _ _).symm]
  rw [List.take_left]

/-! ## Concrete example records for witnesses and counterexamples -/

/-- A booking with the given id, priority, duration and coordinates and
nothing else set. -/
def mkBooking (id : String) (pr : Option ℤ) (dur : Option ℕ)
    (coords : Option Coordinates) : Booking :=
  { _id := id, priority := pr, estimatedDuration := dur, acres := none,
    fieldLocation :=
      coords.map fun c => { coordinates := some c, village := none, district := none },
    timeSlots := none, _calculatedDistance := none }

/-- Urgent booking at (5, 5). -/
def exU : Booking := mkBooking "U" (some 3) none (some ⟨5, 5⟩)

/-- High-priority booking without coordinates. -/
def exH1 : Booking := mkBooking "H1" (some 2) none none

/-- High-priority booking at (7, 3). -/
def exH2 : Booking := mkBooking "H2" (some 2) none (some ⟨7, 3⟩)

/-- Urgent booking without coordinates. -/
def exJ2 : Booking := mkBooking "J2" (some 3) none none

/-- Normal booking at (2, 0): nonzero latitude, zero longitude. -/
def exJ1 : Booking := mkBooking "J1" (some 1) none (some ⟨2, 0⟩)

/-- Plain booking with no fields set. -/
def exB1 : Booking := mkBooking "B1" none none none

/-- A second plain booking. -/
def exB2 : Booking := mkBooking "B2" none none none

/-- Booking with a 200-minute duration and nothing else. -/
def exC : Booking := mkBooking "C" none (some 200) none

/-- Booking with a 30-minute duration and nothing else. -/
def exD : Booking := mkBooking "D" none (some 30) none

/-- C2 witness: with a 08:00–10:00 window (480–600 minutes), a 200-minute
candidate from the initial state is rejected, and folding the loop over it
followed by a 30-minute job equals folding over the 30-minute job alone. -/
theorem scheduleStep_reject_unchanged_witness :
    jobEndOf { currentTime := 480, previousLocation := none, slotOrder := 1, slots := [] }
        exC > 600 ∧
      List.foldl (scheduleStep 600)
          { currentTime := 480, previousLocation := none, slotOrder := 1, slots := [] }
          [exC, exD] =
        List.foldl (scheduleStep 600)
          { currentTime := 480, previousLocation := none, slotOrder := 1, slots := [] }
          [exD] := by
  have h : jobEndOf
      { currentTime := 480, previousLocation := none, slotOrder := 1, slots := [] } exC
      > 600 := by
    simp [jobEndOf, jobStartOf, jobDurationOf, jsOrN, exC, mkBooking]
  exact ⟨h, scheduleStep_reject_unchanged 600 _ exC h [exD]⟩

/-- C3 counterexample: with no machine location, one urgent job at (5, 5)
and two high jobs (H1 without coordinates, H2 at (7, 3)), the source orders
the high tier from the (null) home cursor — priority fallback, keeping
input order H1, H2 — while the spec's carried cursor sits at (5, 5) after
the urgent tier and H2, ranked by distance, is picked first.  The claimed
carried-cursor sequencing therefore disagrees with the code. -/
theorem orderBookings_ne_carried :
    (orderBookings [exU, exH1, exH2] none).map (·._id) ≠
      (scheduleOrderCarried [exU, exH1, exH2] none).map (·._id) := by
  have h1 : (orderBookings [exU, exH1, exH2] none).map (·._id) = ["U", "H1", "H2"] := by
    simp [orderBookings, sortByLocation, sortByLocationLoop_cons, sortByLocationLoop_nil,
      nnPick, nnVisit, List.enum, List.enumFrom, exU, exH1, exH2, mkBooking, bookingCoords,
      coordsLatTruthy, jsOrI, jsOrLoc, nearestDistVal, List.eraseIdx, List.filter]
  have h2 : (scheduleOrderCarried [exU, exH1, exH2] none).map (·._id) = ["U", "H2", "H1"] := by
    simp [scheduleOrderCarried, sortByLocationLoop_cons, sortByLocationLoop_nil, nnPick,
      nnVisit, List.enum, List.enumFrom, exU, exH1, exH2, mkBooking, bookingCoords,
      coordsLatTruthy, jsOrI, jsOrLoc, nearestDistVal, List.eraseIdx, List.filter]
  rw [h1, h2]
  simp

/-! ## Claim C5: mutation of the supplied bookings -/

/-- C5 counterexample: `sortByLocation` returns the supplied booking objects
with `_calculatedDistance` written onto them (in JavaScript the returned
array elements are the caller's own objects, so the inputs are mutated
in place): on two plain bookings the returned records carry
`_calculatedDistance = 0` where the supplied records had none. -/
theorem sortByLocation_writes_calculatedDistance :
    (sortByLocation [exB1, exB2] none).map (·._calculatedDistance) ≠
      [exB1, exB2].map (·._calculatedDistance) := by
  simp [sortByLocation, sortByLocationLoop_cons, sortByLocationLoop_nil, nnPick, nnVisit,
    List.enum, List.enumFrom, exB1, exB2, mkBooking, bookingCoords, coordsLatTruthy,
    jsOrI, jsOrLoc, nearestDistVal, List.eraseIdx]

/-- C5 (amended): apart from the `_calculatedDistance` scratch field that
`sortByLocation` stamps on each booking it sequences, the core leaves every
field of the supplied bookings unchanged: erasing that one field, the
records handed back by `sortByLocation` (and hence the booking objects seen
by `scheduleJobs` and `calculateOptimalRoute`, which mutate only through
it) are a permutation of the records supplied. -/
theorem sortByLocation_mutates_only_calculatedDistance (bookings : List Booking)
    (cur : Option Coordinates) :
    ((sortByLocation bookings cur).map clearCalc).Perm (bookings.map clearCalc) :=
  sortByLocation_clearCalc_perm bookings cur

/-! ## Claim C10: zero coordinate components -/

theorem nnVisit_latFalsy {p : ℕ × Booking}
    (hfalse : coordsLatTruthy (bookingCoords p.2) = false)
    (cur cur' : Option Coordinates) (remaining : List Booking) (acc : NearestAcc) :
    nnVisit cur remaining acc p = nnVisit cur' remaining acc p := by
  simp [nnVisit, hfalse]

theorem nnPick_latFalsy (rem : List Booking) (cur cur' : Option Coordinates)
    (h : ∀ b ∈ rem, coordsLatTruthy (bookingCoords b) = false) :
    nnPick cur rem = nnPick cur' rem := by
  unfold nnPick
  have hgen : ∀ (ps : List (ℕ × Booking)), (∀ p ∈ ps, p.2 ∈ rem) → ∀ acc : NearestAcc,
      ps.foldl (nnVisit cur rem) acc = ps.foldl (nnVisit cur' rem) acc := by
    intro ps
    induction ps with
    | nil => intro _ _; rfl
    | cons p ps ih =>
      intro hmem acc
      simp only [List.foldl_cons]
      rw [nnVisit_latFalsy (h p.2 (hmem p (List.mem_cons_self _ _))) cur cur']
      exact ih (fun q hq => hmem q (List.mem_cons_of_mem _ hq)) _
  exact hgen rem.enum (fun p hp => List.get?_mem (List.mem_enum_iff_get?.mp hp)) _

theorem sortByLocationLoop_latFalsy (bs : List Booking) (cur cur' : Option Coordinates)
    (h : ∀ b ∈ bs, coordsLatTruthy (bookingCoords b) = false) :
    (sortByLocationLoop bs cur).1 = (sortByLocationLoop bs cur').1 := by
  generalize hn : bs.length = n
  induction n using Nat.strong_induction_on generalizing bs cur cur' with
  | _ n ih =>
    match bs, hn with
    | [], hn => rw [sortByLocationLoop_nil, sortByLocationLoop_nil]
    | hd :: tl, hn =>
      rw [sortByLocationLoop_cons, sortByLocationLoop_cons]
      have hpick := nnPick_latFalsy (hd :: tl) cur cur' h
      rw [hpick]
      have hlt := nnPick_index_lt cur' (hd :: tl) (Nat.succ_pos _)
      have hlen : ((hd :: tl).eraseIdx (nnPick cur' (hd :: tl)).nearestIndex).length
          = tl.length := by
        rw [List.length_eraseIdx_of_lt hlt]; simp
      have hrest : ∀ b ∈ (hd :: tl).eraseIdx (nnPick cur' (hd :: tl)).nearestIndex,
          coordsLatTruthy (bookingCoords b) = false :=
        fun b hb => h b ((List.eraseIdx_sublist _ _).mem hb)
      have hn' : tl.length + 1 = n := by simpa using hn
      have hrec := ih tl.length (by omega)
        ((hd :: tl).eraseIdx (nnPick cur' (hd :: tl)).nearestIndex)
        (jsOrLoc
          (bookingCoords (((hd :: tl).get? (nnPick cur' (hd :: tl)).nearestIndex).getD hd))
          cur)
        (jsOrLoc
          (bookingCoords (((hd :: tl).get? (nnPick cur' (hd :: tl)).nearestIndex).getD hd))
          cur')
        hrest hlen
      simp only [hrec]

/-- Booking with latitude 0 at the prime-meridian-like point (0, 2). -/
def exZ : Booking := mkBooking "Z" none none (some ⟨0, 2⟩)

/-- C10 (amended): `calculateDistance` returns 0 whenever either argument
has latitude or longitude exactly 0 (the truthiness presence check), and a
booking whose latitude is 0 or missing is ranked by the priority fallback:
if every booking's latitude is falsy, the nearest-neighbor ordering is
independent of the cursor (it coincides with the ordering from a missing
cursor).  Jobs with longitude 0 but nonzero latitude are, however, still
ranked in the distance branch (with the guard's 0 distance), not by the
priority fallback. -/
theorem calculateDistance_zero_component_fallback :
    (∀ c1 c2 : Coordinates,
        (c1.latitude = 0 ∨ c1.longitude = 0 ∨ c2.latitude = 0 ∨ c2.longitude = 0) →
          calculateDistance (some c1) (some c2) = 0) ∧
      (∀ (bs : List Booking) (cur : Option Coordinates),
        (∀ b ∈ bs, coordsLatTruthy (bookingCoords b) = false) →
          sortByLocation bs cur = sortByLocation bs none) := by
  constructor
  · intro c1 c2 h
    rw [calculateDistance_some_some, if_pos h]
  · intro bs cur h
    unfold sortByLocation
    split
    · rfl
    · exact sortByLocationLoop_latFalsy bs cur none h

/-- C10 witness: the distance from (0, 5) to (3, 4) is 0 (zero latitude on
the first point), and on two bookings with falsy latitudes — one at (0, 2),
one without coordinates — sorting from the cursor (1, 1) equals sorting
with no cursor. -/
theorem calculateDistance_zero_component_fallback_witness :
    calculateDistance (some ⟨0, 5⟩) (some ⟨3, 4⟩) = 0 ∧
      sortByLocation [exZ, exB1] (some ⟨1, 1⟩) = sortByLocation [exZ, exB1] none := by
  constructor
  · exact calculateDistance_zero_component_fallback.1 ⟨0, 5⟩ ⟨3, 4⟩ (Or.inl rfl)
  · exact calculateDistance_zero_component_fallback.2 [exZ, exB1] (some ⟨1, 1⟩)
      (by decide)

/-- C10 counterexample: a job with longitude 0 but nonzero latitude is
*not* ordered by the priority fallback.  From cursor (1, 1), with an urgent
coordinate-less job J2 listed first and a normal job J1 at (2, 0) second,
the source picks J1 first (distance branch, guard distance 0 beating the
initial Infinity), while the claimed zero-as-missing reading would rank
both in the priority fallback and pick the higher-priority J2 first. -/
theorem sortByLocation_zero_longitude_not_fallback :
    (sortByLocation [exJ2, exJ1] (some ⟨1, 1⟩)).map (·._id) ≠
      (sortByLocationZeroMissing [exJ2, exJ1] (some ⟨1, 1⟩)).map (·._id) := by
  have h1 : (sortByLocation [exJ2, exJ1] (some ⟨1, 1⟩)).map (·._id) = ["J1", "J2"] := by
    simp [sortByLocation, sortByLocationLoop_cons, sortByLocationLoop_nil, nnPick, nnVisit,
      List.enum, List.enumFrom, exJ1, exJ2, mkBooking, bookingCoords, coordsLatTruthy,
      jsOrI, jsOrLoc, nearestDistVal, List.eraseIdx]
  have h2 : (sortByLocationZeroMissing [exJ2, exJ1] (some ⟨1, 1⟩)).map (·._id)
      = ["J2", "J1"] := by
    simp [sortByLocationZeroMissing, sortByLocationLoopZM, nnPickZM, nnVisitZeroMissing,
      List.enum, List.enumFrom, exJ1, exJ2, mkBooking, bookingCoords, coordsFullyTruthy,
      jsOrI, jsOrLoc, nearestDistVal, List.eraseIdx]
  rw [h1, h2]
  simp

/-! ## Claim C7: utilization of an empty day -/

/-- Machine whose working window is empty: start = end = 9. -/
def exMachine9 : Machine :=
  { availability := some { workingHoursStart := some 9, workingHoursEnd := some 9 }
    location := none
    dailyCapacityAcres := none }

/-- C7 counterexample: on a machine with a zero-length working window
(`workingHoursStart = workingHoursEnd = 9`) and no bookings, the time
utilization is the non-finite marker (JavaScript computes
`Math.round(0/0 * 100) = NaN`, rendered `"NaN%"`), not `0%`. -/
theorem calculateUtilization_empty_nan :
    (calculateUtilization [] (some exMachine9)).timeUtilization = none ∧
      (calculateUtilization [] (some exMachine9)).timeUtilization ≠ some 0 := by
  decide

/-- C7 (amended): for every machine profile whose (defaulted) working
window has nonzero length, `calculateUtilization` of an empty booking list
reports 0% time utilization and 0% area utilization, with no
division-by-zero. -/
theorem calculateUtilization_empty (machine : Option Machine)
    (h : (calculateUtilization [] machine).totalWorkingMinutes ≠ 0) :
    (calculateUtilization [] machine).timeUtilization = some 0 ∧
      (calculateUtilization [] machine).acresUtilization = some 0 := by
  have hcap : jsOrQ (machine.bind (·.dailyCapacityAcres)) 10 ≠ 0 := by
    unfold jsOrQ
    rcases machine.bind (·.dailyCapacityAcres) with _ | x
    · norm_num
    · dsimp only
      split
      · norm_num
      · assumption
  unfold calculateUtilization at *
  simp only [List.map_nil, List.sum_nil, List.length_nil] at *
  constructor
  · rw [if_neg h]
    norm_num
  · rw [if_neg hcap]
    norm_num

/-- C7 witness: with no machine document the defaults give a 600-minute
window, and the empty day reports 0%/0%. -/
theorem calculateUtilization_empty_witness :
    (calculateUtilization [] none).totalWorkingMinutes ≠ 0 ∧
      ((calculateUtilization [] none).timeUtilization = some 0 ∧
        (calculateUtilization [] none).acresUtilization = some 0) := by
  have h : (calculateUtilization [] none).totalWorkingMinutes ≠ 0 := by decide
  exact ⟨h, calculateUtilization_empty none h⟩

/-! ## Claim C9: the gap walk -/

theorem specAvailableGaps_nil (cur wE dur : ℤ) :
    specAvailableGaps [] cur wE dur =
      if wE - cur ≥ dur then
        [{ startTime := cur, endTime := cur + dur, gapDuration := wE - cur }]
      else [] := by
  unfold specAvailableGaps
  simp only [List.map_nil, List.nil_append, List.zip_cons_cons, List.zip_nil_right,
    List.filterMap_cons, List.filterMap_nil]
  split <;> simp_all

theorem specAvailableGaps_cons (s : TimeSlots) (rest : List TimeSlots) (cur wE dur : ℤ) :
    specAvailableGaps (s :: rest) cur wE dur =
      (if (s.startTime : ℤ) - cur ≥ dur then
        [{ startTime := cur, endTime := cur + dur,
           gapDuration := (s.startTime : ℤ) - cur }]
       else []) ++ specAvailableGaps rest (s.endTime : ℤ) wE dur := by
  unfold specAvailableGaps
  simp only [List.map_cons, List.cons_append, List.zip_cons_cons, List.filterMap_cons]
  split <;> simp_all

theorem availWalk (wE dur : ℤ) :
    ∀ bs : List Booking, (∀ b ∈ bs, b.timeSlots.isSome) →
      ∀ (cur : ℤ) (acc : List AvailableSlot),
        (if wE - (bs.foldl (availStep dur) (cur, acc)).1 ≥ dur then
          (bs.foldl (availStep dur) (cur, acc)).2 ++
            [{ startTime := (bs.foldl (availStep dur) (cur, acc)).1,
               endTime := (bs.foldl (availStep dur) (cur, acc)).1 + dur,
               gapDuration := wE - (bs.foldl (availStep dur) (cur, acc)).1 }]
         else (bs.foldl (availStep dur) (cur, acc)).2) =
        acc ++ specAvailableGaps (bs.filterMap (·.timeSlots)) cur wE dur := by
  intro bs
  induction bs with
  | nil =>
    intro _ cur acc
    simp only [List.foldl_nil, List.filterMap_nil, specAvailableGaps_nil]
    split <;> simp
  | cons b bs ih =>
    intro h cur acc
    have hb := h b (List.mem_cons_self _ _)
    obtain ⟨ts, hts⟩ := Option.isSome_iff_exists.mp hb
    have hstart : slotStartOf b = ts.startTime := by simp [slotStartOf, hts]
    have hend : slotEndOf b = ts.endTime := by simp [slotEndOf, hts]
    have hstep : availStep dur (cur, acc) b =
        ((ts.endTime : ℤ),
         if (ts.startTime : ℤ) - cur ≥ dur then
           acc ++ [{ startTime := cur, endTime := cur + dur,
                     gapDuration := (ts.startTime : ℤ) - cur }]
         else acc) := by
      simp [availStep, hstart, hend]
    have hfm : (b :: bs).filterMap (·.timeSlots) = ts :: bs.filterMap (·.timeSlots) := by
      simp [List.filterMap_cons, hts]
    rw [List.foldl_cons, hstep, hfm, specAvailableGaps_cons,
      ih (fun q hq => h q (List.mem_cons_of_mem _ hq)) (ts.endTime : ℤ) _]
    split <;> simp [List.append_assoc]

/-- C9: on a time-ordered, non-overlapping list of assigned slots (every
booking carries a `timeSlots` record, earlier slots end before later ones
start, and each slot's start does not exceed its end), `getAvailableSlots`
returns exactly the gaps of the day — the interval before each slot and the
one after the last slot within the working window — that are at least the
requested duration long, each as a candidate window
`[gapStart, gapStart + duration)` anchored at the gap's start, as described
by the specification-side `specAvailableGaps`; being a pure function of its
arguments, it reserves and mutates nothing. -/
theorem getAvailableSlots_gap_spec (existingBookings : List Booking)
    (machine : Option Machine) (requiredDuration : ℤ)
    (hslots : ∀ b ∈ existingBookings, b.timeSlots.isSome)
    (hnonoverlap : existingBookings.Pairwise fun a b =>
      (slotEndOf a : ℤ) ≤ (slotStartOf b : ℤ))
    (hwf : ∀ b ∈ existingBookings, slotStartOf b ≤ slotEndOf b) :
    getAvailableSlots existingBookings machine requiredDuration =
      specAvailableGaps (existingBookings.filterMap (·.timeSlots))
        (machineWorkingHoursStart machine * 60) (machineWorkingHoursEnd machine * 60)
        requiredDuration := by
  have hfilter : existingBookings.filter (fun b => b.timeSlots.isSome) = existingBookings :=
    List.filter_eq_self.mpr fun b hb => hslots b hb
  have hsorted : List.Sorted (fun a b : Booking => slotStartOf a ≤ slotStartOf b)
      existingBookings := by
    refine hnonoverlap.imp_of_mem ?_
    intro a b ha hb hab
    have h1 := hwf a ha
    omega
  unfold getAvailableSlots
  rw [hfilter, List.Sorted.insertionSort_eq hsorted]
  have hw := availWalk (machineWorkingHoursEnd machine * 60) requiredDuration
    existingBookings hslots (machineWorkingHoursStart machine * 60) []
  rw [List.nil_append] at hw
  exact hw

/-- Booking already assigned the slot 09:00–10:00 (540–600 minutes). -/
def exT : Booking := { mkBooking "T" none none none with timeSlots := some ⟨540, 600⟩ }

/-- C9 witness: a single assigned slot 09:00–10:00 satisfies all three
hypotheses, and the gap query for 60 minutes agrees with the
specification-side gap list. -/
theorem getAvailableSlots_gap_spec_witness :
    (∀ b ∈ [exT], b.timeSlots.isSome) ∧
      ([exT].Pairwise fun a b => (slotEndOf a : ℤ) ≤ (slotStartOf b : ℤ)) ∧
      (∀ b ∈ [exT], slotStartOf b ≤ slotEndOf b) ∧
      getAvailableSlots [exT] none 60 =
        specAvailableGaps ([exT].filterMap (·.timeSlots))
          (machineWorkingHoursStart none * 60) (machineWorkingHoursEnd none * 60) 60 := by
  have h1 : ∀ b ∈ [exT], b.timeSlots.isSome := by decide
  have h2 : [exT].Pairwise fun a b => (slotEndOf a : ℤ) ≤ (slotStartOf b : ℤ) := by simp
  have h3 : ∀ b ∈ [exT], slotStartOf b ≤ slotEndOf b := by decide
  exact ⟨h1, h2, h3, getAvailableSlots_gap_spec [exT] none 60 h1 h2 h3⟩
